import Mathlib

/-!
Verification of the openobs_beta link-graph frontend.

Shallow embedding of:
* the graph hooks and filter/transform stage of
  `src/components/ui/Spinner.tsx` (graph data types, `calculateNodeSize`,
  `getFolderPath`, `transformToD3`, the graph cache and the `useGraph` /
  `useLocalGraph` fetch logic);
* the links hook of `src/hooks/useLinks.ts` (`linksCache`, `fetchLinks`);
* the wikilink decorator of `src/components/editor/extensions/wikilink.ts`
  (`wikilinkRegex`, `buildWikilinkDecorations`);
* the markdown pre-processor of `src/components/editor/ReadingView.tsx`
  (`stripFrontmatter`, `preprocessMarkdown`).

Strings are modelled as `List Char` where character-level scanning matters,
JavaScript numbers used as millisecond timestamps as `Int`, and the float
arithmetic of `calculateNodeSize` as exact rationals.  JavaScript `Map`s are
modelled as association lists whose `lookup` returns the most recent binding
(`Map.set` = cons, which shadows older bindings exactly like overwriting).
-/

namespace OpenObs

/-- JavaScript string truthiness for an optional string: `undefined`/`null`
and the empty string are falsy. -/
def optTruthy : Option String → Bool
  | none => false
  | some s => !(s == "")

-- ============================================================================
-- Graph data model (types matching the Rust GraphData response, Spinner.tsx)
-- ============================================================================

/-- Node type for graph nodes: `'note' | 'concept'`. -/
inductive NodeType where
  | note
  | concept
deriving DecidableEq

/-- Edge type for graph edges: `'direct' | 'concept'`. -/
inductive EdgeType where
  | direct
  | concept
deriving DecidableEq

/-- Graph node from the Rust backend. -/
structure GraphNode where
  id : String
  label : String
  path : String
  connections : Nat
  nodeType : NodeType
deriving DecidableEq

/-- Graph edge from the Rust backend. -/
structure GraphEdge where
  source : String
  target : String
  edgeType : EdgeType
  concept : Option String
deriving DecidableEq

/-- Information about a concept (shared wikilink to a non-existent page). -/
structure ConceptInfo where
  name : String
  count : Nat
  notes : List String
deriving DecidableEq

/-- Graph data response from the Rust backend. -/
structure GraphData where
  nodes : List GraphNode
  edges : List GraphEdge
  concepts : List ConceptInfo
deriving DecidableEq

/-- Filter options accepted by the filter/transform stage. -/
structure GraphFilterOptions where
  folderPath : Option String := none
  tag : Option String := none
  showOrphans : Option Bool := none
  showConceptLinks : Option Bool := none
deriving DecidableEq

/-- D3-compatible node (simulation coordinates omitted; they are never set by
the transform itself). -/
structure D3Node where
  id : String
  label : String
  path : String
  connections : Nat
  nodeType : NodeType
  size : ℚ
  isCenter : Bool
  folder : String
deriving DecidableEq

/-- D3-compatible edge. -/
structure D3Edge where
  source : String
  target : String
  edgeType : EdgeType
  concept : Option String
deriving DecidableEq

/-- Transformed graph data for D3. -/
structure D3GraphData where
  nodes : List D3Node
  edges : List D3Edge
  concepts : List ConceptInfo
deriving DecidableEq

-- ============================================================================
-- Utility functions of Spinner.tsx
-- ============================================================================

/-- Index of the last occurrence of a character, mirroring
`String.prototype.lastIndexOf` (`none` plays the role of `-1`). -/
def lastIndexOfChar (c : Char) : List Char → Option Nat
  | [] => none
  | x :: xs =>
    match lastIndexOfChar c xs with
    | some i => some (i + 1)
    | none => if x == c then some 0 else none

/-- `getFolderPath`: folder of a note path
(`lastSlash > 0 ? path.substring(0, lastSlash) : '/'`). -/
def getFolderPath (path : String) : String :=
  match lastIndexOfChar '/' path.data with
  | some lastSlash => if 0 < lastSlash then ⟨path.data.take lastSlash⟩ else "/"
  | none => "/"

/-- `calculateNodeSize`: node size from connection count, scaled between
`minSize = 4` and `maxSize = 20`; returns `minSize` when
`maxConnections === 0`.  Float arithmetic modelled exactly over `ℚ`. -/
def calculateNodeSize (connections maxConnections : Nat) : ℚ :=
  let minSize : ℚ := 4
  let maxSize : ℚ := 20
  if maxConnections = 0 then minSize
  else minSize + ((connections : ℚ) / (maxConnections : ℚ)) * (maxSize - minSize)

-- ============================================================================
-- transformToD3 (Spinner.tsx, lines 599-674), decomposed by its local lets
-- ============================================================================

/-- `Math.max(...data.nodes.map(n => n.connections), 1)`. -/
def maxConnectionsOf (data : GraphData) : Nat :=
  (data.nodes.map (fun n => n.connections)).foldr max 1

/-- The node filter body of `transformToD3`: folder-path filter, then the
first-pass orphan filter on the pre-filter connection count. -/
def nodePassesFilters (filters : GraphFilterOptions) (node : GraphNode) : Bool :=
  let showOrphans := filters.showOrphans.getD true
  if optTruthy filters.folderPath && !(node.path.startsWith (filters.folderPath.getD "")) then
    false
  else if !showOrphans && node.connections == 0 then
    false
  else
    true

/-- First `filteredNodes` value of `transformToD3`. -/
def filteredNodes1 (data : GraphData) (filters : GraphFilterOptions) : List GraphNode :=
  data.nodes.filter (nodePassesFilters filters)

/-- `validNodeIds`: ids of the node-filtered nodes (a JS `Set`, modelled as the
underlying id list queried through `contains`). -/
def validNodeIds (data : GraphData) (filters : GraphFilterOptions) : List String :=
  (filteredNodes1 data filters).map (fun n => n.id)

/-- The edge filter body of `transformToD3`: both endpoints must be valid, and
concept edges are dropped when `showConceptLinks` is false. -/
def edgePassesFilters (filters : GraphFilterOptions) (valid : List String)
    (edge : GraphEdge) : Bool :=
  let showConceptLinks := filters.showConceptLinks.getD true
  if !(valid.contains edge.source) || !(valid.contains edge.target) then
    false
  else if !showConceptLinks && edge.edgeType == EdgeType.concept then
    false
  else
    true

/-- `filteredEdges` of `transformToD3`. -/
def filteredEdges (data : GraphData) (filters : GraphFilterOptions) : List GraphEdge :=
  data.edges.filter (edgePassesFilters filters (validNodeIds data filters))

/-- `connectedIds`: every id touched by a kept edge (a JS `Set` built by
`forEach`/`add`, modelled as a list queried through `contains`). -/
def connectedIds (edges : List GraphEdge) : List String :=
  edges.flatMap (fun e => [e.source, e.target])

/-- Second `filteredNodes` value: the orphan re-pruning pass
(`filteredNodes.filter(n => connectedIds.has(n.id) || n.connections > 0)`),
run only when `showOrphans` is false. -/
def filteredNodes2 (data : GraphData) (filters : GraphFilterOptions) : List GraphNode :=
  let showOrphans := filters.showOrphans.getD true
  if !showOrphans then
    (filteredNodes1 data filters).filter (fun n =>
      (connectedIds (filteredEdges data filters)).contains n.id || decide (0 < n.connections))
  else
    filteredNodes1 data filters

/-- The `d3Nodes` mapping body: spread of the input node plus `size`,
`isCenter` and `folder`. -/
def toD3Node (maxConnections : Nat) (centerPath : Option String) (node : GraphNode) : D3Node :=
  { id := node.id
    label := node.label
    path := node.path
    connections := node.connections
    nodeType := node.nodeType
    size := calculateNodeSize node.connections maxConnections
    isCenter := if optTruthy centerPath then node.path == centerPath.getD "" else false
    folder := getFolderPath node.path }

/-- `transformToD3`: the filter/transform stage assembling the D3 payload. -/
def transformToD3 (data : GraphData) (filters : GraphFilterOptions)
    (centerPath : Option String) : D3GraphData :=
  let maxConnections := maxConnectionsOf data
  let d3Nodes := (filteredNodes2 data filters).map (toD3Node maxConnections centerPath)
  let d3Edges := (filteredEdges data filters).map (fun e =>
    { source := e.source, target := e.target, edgeType := e.edgeType
      concept := e.concept : D3Edge })
  let filteredConcepts := data.concepts.filter (fun c =>
    c.notes.any (fun notePath => (validNodeIds data filters).contains notePath))
  { nodes := d3Nodes, edges := d3Edges, concepts := filteredConcepts }

/-- Modelled from the spec: the number of edges of an edge list touching a
given node id.  The spec requires output connection counts to equal this
value over the filtered edge set; used to compare against what the code
actually emits. -/
def specConnectionCount (edges : List D3Edge) (id0 : String) : Nat :=
  (edges.filter (fun e => e.source == id0 || e.target == id0)).length

-- ============================================================================
-- Graph cache and the useGraph / useLocalGraph fetch logic (Spinner.tsx)
-- ============================================================================

namespace UseGraph

/-- `const CACHE_TTL = 60000; // 1 minute` (Spinner.tsx). -/
def CACHE_TTL : Int := 60000

/-- An entry of `graphCache`: `{ data: GraphData; timestamp: number }`. -/
structure GraphCacheEntry where
  data : GraphData
  timestamp : Int
deriving DecidableEq

/-- `graphCache : Map<string, GraphCacheEntry>`, as an association list. -/
abbrev GraphCache := List (String × GraphCacheEntry)

/-- The React state and refs of `useGraph` relevant to fetching. -/
structure GraphState where
  rawData : Option GraphData
  isLoading : Bool
  error : Option String
  fetchInProgress : Bool
  graphCache : GraphCache
deriving DecidableEq

/-- Observable outcome of one `fetchGraph` call up to its `await`. -/
inductive FetchGraphStep where
  | skippedInFlight
  | servedFromCache (data : GraphData)
  | startedFetch
deriving DecidableEq

/-- The synchronous prefix of `fetchGraph` (Spinner.tsx, `useGraph`): the
in-flight early return, the cache check against key `'full'`, and otherwise
the transition into the fetching state (flag set, loading set, error
cleared) just before `invoke('get_graph_data')` is issued. -/
def fetchGraphStart (st : GraphState) (now : Int) : GraphState × FetchGraphStep :=
  if st.fetchInProgress then
    (st, .skippedInFlight)
  else
    match st.graphCache.lookup "full" with
    | some cached =>
      if now - cached.timestamp < CACHE_TTL then
        ({ st with rawData := some cached.data, error := none }, .servedFromCache cached.data)
      else
        ({ st with fetchInProgress := true, isLoading := true, error := none }, .startedFetch)
    | none =>
      ({ st with fetchInProgress := true, isLoading := true, error := none }, .startedFetch)

/-- The cache key of `useLocalGraph`: `` `local:${centerPath}:${depth}` ``. -/
def localGraphCacheKey (centerPath : String) (depth : Nat) : String :=
  "local:" ++ centerPath ++ ":" ++ toString depth

/-- The React state and refs of `useLocalGraph` relevant to fetching. -/
structure LocalGraphState where
  rawData : Option GraphData
  isLoading : Bool
  error : Option String
  currentPathRef : Option String
  graphCache : GraphCache
deriving DecidableEq

/-- Observable outcome of one `fetchLocalGraph` call up to its `await`. -/
inductive FetchLocalGraphStep where
  | clearedNoPath
  | servedFromCache (data : GraphData)
  | startedFetch
deriving DecidableEq

/-- The synchronous prefix of `fetchLocalGraph` (Spinner.tsx,
`useLocalGraph`): the falsy-path clearing branch, the cache check, and
otherwise the transition into the fetching state (ref set to the center
path, loading set, error cleared) just before `invoke('get_local_graph')`.
Note the cache-hit and clearing branches leave `currentPathRef` untouched. -/
def fetchLocalGraphStart (st : LocalGraphState) (centerPath : Option String)
    (depth : Nat) (now : Int) : LocalGraphState × FetchLocalGraphStep :=
  if !(optTruthy centerPath) then
    ({ st with rawData := none, error := none }, .clearedNoPath)
  else
    let p := centerPath.getD ""
    match st.graphCache.lookup (localGraphCacheKey p depth) with
    | some cached =>
      if now - cached.timestamp < CACHE_TTL then
        ({ st with rawData := some cached.data, error := none }, .servedFromCache cached.data)
      else
        ({ st with currentPathRef := some p, isLoading := true, error := none }, .startedFetch)
    | none =>
      ({ st with currentPathRef := some p, isLoading := true, error := none }, .startedFetch)

/-- The response-commit logic of `fetchLocalGraph`: each of the success
branch, the catch branch and the finally branch is guarded by
`currentPathRef.current === centerPath`, so a response whose path does not
match the ref at arrival changes nothing at all. -/
def applyLocalGraphResponse (st : LocalGraphState) (centerPath : String) (depth : Nat)
    (res : Except String GraphData) (now : Int) : LocalGraphState :=
  match res with
  | .ok data =>
    if st.currentPathRef == some centerPath then
      { st with rawData := some data
                graphCache := (localGraphCacheKey centerPath depth, ⟨data, now⟩) :: st.graphCache
                isLoading := false }
    else st
  | .error msg =>
    if st.currentPathRef == some centerPath then
      { st with error := some msg, isLoading := false }
    else st

end UseGraph

-- ============================================================================
-- Links cache and fetch logic (useLinks.ts)
-- ============================================================================

namespace UseLinks

/-- `const CACHE_TTL = 30000; // 30 seconds` (useLinks.ts). -/
def CACHE_TTL : Int := 30000

/-- A backlink / outgoing-link record (`types/links.ts`). -/
structure LinkInfo where
  path : String
  title : String
  link_text : Option String
deriving DecidableEq

/-- An entry of `linksCache`. -/
structure LinksCacheEntry where
  backlinks : List LinkInfo
  outgoingLinks : List LinkInfo
  timestamp : Int
deriving DecidableEq

/-- `linksCache : Map<string, LinksCacheEntry>`, as an association list. -/
abbrev LinksCache := List (String × LinksCacheEntry)

/-- The React state and refs of `useLinks` relevant to fetching. -/
structure LinksState where
  backlinks : List LinkInfo
  outgoingLinks : List LinkInfo
  isLoading : Bool
  error : Option String
  currentPathRef : Option String
  linksCache : LinksCache
deriving DecidableEq

/-- Observable outcome of one `fetchLinks` call up to its `await`. -/
inductive FetchLinksStep where
  | clearedNoPath
  | servedFromCache (backlinks outgoingLinks : List LinkInfo)
  | startedFetch
deriving DecidableEq

/-- The synchronous prefix of `fetchLinks` (useLinks.ts): the falsy-path
clearing branch, the cache check, and otherwise the transition into the
fetching state (ref set to the path, loading set, error cleared) just
before the two `invoke` calls are issued.  There is no in-flight flag, and
the cache-hit and clearing branches leave `currentPathRef` untouched. -/
def fetchLinksStart (st : LinksState) (path : Option String) (now : Int) :
    LinksState × FetchLinksStep :=
  if !(optTruthy path) then
    ({ st with backlinks := [], outgoingLinks := [], error := none }, .clearedNoPath)
  else
    let p := path.getD ""
    match st.linksCache.lookup p with
    | some cached =>
      if now - cached.timestamp < CACHE_TTL then
        ({ st with backlinks := cached.backlinks, outgoingLinks := cached.outgoingLinks
                   error := none },
         .servedFromCache cached.backlinks cached.outgoingLinks)
      else
        ({ st with currentPathRef := some p, isLoading := true, error := none }, .startedFetch)
    | none =>
      ({ st with currentPathRef := some p, isLoading := true, error := none }, .startedFetch)

/-- The response-commit logic of `fetchLinks`: the success branch (state and
cache update), the catch branch (error set) and the finally branch
(loading cleared) are all guarded by `currentPathRef.current === path`,
so a response whose path does not match the ref at arrival changes
nothing at all. -/
def applyLinksResponse (st : LinksState) (path : String)
    (res : Except String (List LinkInfo × List LinkInfo)) (now : Int) : LinksState :=
  match res with
  | .ok (newBacklinks, newOutgoingLinks) =>
    if st.currentPathRef == some path then
      { st with backlinks := newBacklinks
                outgoingLinks := newOutgoingLinks
                linksCache := (path, ⟨newBacklinks, newOutgoingLinks, now⟩) :: st.linksCache
                isLoading := false }
    else st
  | .error msg =>
    if st.currentPathRef == some path then
      { st with error := some msg, isLoading := false }
    else st

end UseLinks

-- ============================================================================
-- wikilinkRegex and buildWikilinkDecorations (wikilink.ts)
-- ============================================================================

/-- Character class `[^\]|]` of `wikilinkRegex`: anything but `]` and `|`
(newlines included — negated classes match newlines in JavaScript). -/
def wikiTargetChar (c : Char) : Bool :=
  !(c == ']') && !(c == '|')

/-- Character class `[^\]]`: anything but `]`. -/
def wikiAliasChar (c : Char) : Bool :=
  !(c == ']')

/-- One attempted match of `wikilinkRegex = /\[\[([^\]|]+)(?:\|([^\]]+))?\]\]/`
anchored at the head of the input.  The greedy character classes admit no
backtracking (the target class excludes exactly the characters that could
follow it), so the regex is deterministic: on success returns the target,
the optional alias and the text after the match. -/
def wikilinkMatchAt (s : List Char) : Option (List Char × Option (List Char) × List Char) :=
  match s with
  | '[' :: '[' :: rest =>
    let t := rest.takeWhile wikiTargetChar
    if t.isEmpty then none
    else
      match rest.dropWhile wikiTargetChar with
      | '|' :: r2 =>
        let a := r2.takeWhile wikiAliasChar
        if a.isEmpty then none
        else
          match r2.dropWhile wikiAliasChar with
          | ']' :: ']' :: r4 => some (t, some a, r4)
          | _ => none
      | ']' :: ']' :: r4 => some (t, none, r4)
      | _ => none
  | _ => none

/-- One match found by the `wikilinkRegex.exec` loop: absolute start and end
offsets, the captured target and the optional captured alias. -/
structure ScanMatch where
  start : Nat
  stop : Nat
  target : List Char
  aliasText : Option (List Char)
deriving DecidableEq

/-- The `while ((match = wikilinkRegex.exec(text)) !== null)` loop: scan for
the leftmost match at or after the current position, record it, continue
from the match end (`lastIndex`).  `fuel` is a structural-termination
device; every step consumes at least one character, so `fuel = s.length`
always suffices. -/
def wikilinkScanFrom : Nat → Nat → List Char → List ScanMatch
  | 0, _, _ => []
  | _ + 1, _, [] => []
  | fuel + 1, i, c :: cs =>
    match wikilinkMatchAt (c :: cs) with
    | some (t, a, rest) =>
      let len := (c :: cs).length - rest.length
      ⟨i, i + len, t, a⟩ :: wikilinkScanFrom fuel (i + len) rest
    | none => wikilinkScanFrom fuel (i + 1) cs

/-- All matches of the global `wikilinkRegex` over a text, in order. -/
def wikilinkMatches (s : String) : List ScanMatch :=
  wikilinkScanFrom s.data.length 0 s.data

/-- A node of the CodeMirror syntax tree, abstracted to what
`buildWikilinkDecorations` inspects: its name and its range. -/
structure TreeNode where
  name : String
  nFrom : Nat
  nTo : Nat
deriving DecidableEq

/-- `isPrefixOfChars pre l` holds when `pre` is a prefix of `l`. -/
def isPrefixOfChars : List Char → List Char → Bool
  | [], _ => true
  | _ :: _, [] => false
  | a :: as, b :: bs => a == b && isPrefixOfChars as bs

/-- JavaScript `String.prototype.includes`: substring containment. -/
def includesSub (hay sub : List Char) : Bool :=
  isPrefixOfChars sub hay ||
    match hay with
    | [] => false
    | _ :: t => includesSub t sub

/-- The code-node test of `buildWikilinkDecorations`:
`node.name.includes('CodeBlock') || node.name.includes('FencedCode') ||
node.name.includes('InlineCode')`. -/
def isCodeNodeName (name : String) : Bool :=
  includesSub name.data "CodeBlock".data ||
  includesSub name.data "FencedCode".data ||
  includesSub name.data "InlineCode".data

/-- `syntaxTree(...).iterate({from: start, to: end})` visits exactly the nodes
whose range overlaps the queried range. -/
def nodeOverlaps (start stop : Nat) (nd : TreeNode) : Bool :=
  decide (nd.nFrom ≤ stop) && decide (start ≤ nd.nTo)

/-- The `inCodeBlock` flag computed per match by `buildWikilinkDecorations`:
some overlapping syntax node has a code-like name. -/
def inCodeBlock (tree : List TreeNode) (start stop : Nat) : Bool :=
  tree.any (fun nd => nodeOverlaps start stop nd && isCodeNodeName nd.name)

/-- One decoration added to the `RangeSetBuilder`. -/
structure Decoration where
  dFrom : Nat
  dTo : Nat
  mark : String
deriving DecidableEq

/-- `buildWikilinkDecorations`: for each visible range, run the
`wikilinkRegex` exec loop over the sliced text (match offsets shifted by
the range start) and, unless the match overlaps a code node, add bracket
marks around a wikilink mark.  The syntax tree is passed in abstractly. -/
def buildWikilinkDecorations (doc : List Char) (tree : List TreeNode)
    (visibleRanges : List (Nat × Nat)) : List Decoration :=
  visibleRanges.flatMap (fun r =>
    let text := (doc.drop r.1).take (r.2 - r.1)
    (wikilinkScanFrom text.length r.1 text).flatMap (fun m =>
      if inCodeBlock tree m.start m.stop then []
      else
        [⟨m.start, m.start + 2, "cm-wikilink-bracket"⟩,
         ⟨m.start + 2, m.stop - 2, "cm-wikilink"⟩,
         ⟨m.stop - 2, m.stop, "cm-wikilink-bracket"⟩]))

-- ============================================================================
-- stripFrontmatter and preprocessMarkdown (ReadingView.tsx)
-- ============================================================================

/-- The trailing `\r?\n?` of the frontmatter regex, both quantifiers greedy. -/
def eatEol : List Char → List Char
  | '\r' :: '\n' :: r => r
  | '\r' :: r => r
  | '\n' :: r => r
  | r => r

/-- The closing part `\r?\n(ddd)\r?\n?` of the frontmatter regex anchored at
the head of the input, where `ddd` is the delimiter repeated three times. -/
def sepMatch (d : Char) (s : List Char) : Option (List Char) :=
  let closeAt : List Char → Option (List Char) := fun r =>
    match r with
    | a :: b :: c :: rest =>
      if a == d && b == d && c == d then some (eatEol rest) else none
    | _ => none
  match s with
  | '\r' :: '\n' :: r => closeAt r
  | '\n' :: r => closeAt r
  | _ => none

/-- The lazy `[\s\S]*?` of the frontmatter regex: find the earliest position
where the closing part matches, returning the text after the whole match.
`fuel = body.length` always suffices. -/
def findClose (d : Char) : Nat → List Char → Option (List Char)
  | 0, _ => none
  | fuel + 1, s =>
    match sepMatch d s with
    | some rest => some rest
    | none =>
      match s with
      | [] => none
      | _ :: cs => findClose d fuel cs

/-- One alternative `^(ddd)\r?\n[\s\S]*?\r?\n(ddd)\r?\n?` of the frontmatter
regex, anchored at the start of the content. -/
def stripDelim (d : Char) (s : List Char) : Option (List Char) :=
  match s with
  | a :: b :: c :: rest =>
    if a == d && b == d && c == d then
      match rest with
      | '\r' :: '\n' :: body => findClose d body.length body
      | '\n' :: body => findClose d body.length body
      | _ => none
    else none
  | _ => none

/-- `stripFrontmatter`: remove a leading YAML (`---`) or TOML (`+++`)
frontmatter block; the `---` alternative is tried first. -/
def stripFrontmatter (s : List Char) : List Char :=
  match stripDelim '-' s with
  | some rest => rest
  | none =>
    match stripDelim '+' s with
    | some rest => rest
    | none => s

/-- The replacement template
`<span class="wikilink" data-target="$1">$2</span>` with target and display
text substituted. -/
def spanWikilink (target disp : List Char) : List Char :=
  "<span class=\"wikilink\" data-target=\"".data ++ target ++ "\">".data ++
    disp ++ "</span>".data

/-- One attempted match of `/\[\[([^\]|]+)\|([^\]]+)\]\]/` (the aliased
wikilink replace of `preprocessMarkdown`) anchored at the head of the
input; the alias part is mandatory here. -/
def wikiAliasedMatchAt (s : List Char) : Option (List Char × List Char × List Char) :=
  match s with
  | '[' :: '[' :: rest =>
    let t := rest.takeWhile wikiTargetChar
    if t.isEmpty then none
    else
      match rest.dropWhile wikiTargetChar with
      | '|' :: r2 =>
        let a := r2.takeWhile wikiAliasChar
        if a.isEmpty then none
        else
          match r2.dropWhile wikiAliasChar with
          | ']' :: ']' :: r4 => some (t, a, r4)
          | _ => none
      | _ => none
  | _ => none

/-- The global replace
`.replace(/\[\[([^\]|]+)\|([^\]]+)\]\]/g, '<span ...>$2</span>')`.
`fuel = s.length` always suffices. -/
def replaceWikilinksAliased : Nat → List Char → List Char
  | 0, s => s
  | _ + 1, [] => []
  | fuel + 1, c :: cs =>
    match wikiAliasedMatchAt (c :: cs) with
    | some (t, a, rest) => spanWikilink t a ++ replaceWikilinksAliased fuel rest
    | none => c :: replaceWikilinksAliased fuel cs

/-- One attempted match of `/\[\[([^\]]+)\]\]/` (the plain wikilink replace of
`preprocessMarkdown`; the target class here admits `|`). -/
def wikiPlainMatchAt (s : List Char) : Option (List Char × List Char) :=
  match s with
  | '[' :: '[' :: rest =>
    let t := rest.takeWhile wikiAliasChar
    if t.isEmpty then none
    else
      match rest.dropWhile wikiAliasChar with
      | ']' :: ']' :: r4 => some (t, r4)
      | _ => none
  | _ => none

/-- The global replace `.replace(/\[\[([^\]]+)\]\]/g, '<span ...>$1</span>')`. -/
def replaceWikilinksPlain : Nat → List Char → List Char
  | 0, s => s
  | _ + 1, [] => []
  | fuel + 1, c :: cs =>
    match wikiPlainMatchAt (c :: cs) with
    | some (t, rest) => spanWikilink t t ++ replaceWikilinksPlain fuel rest
    | none => c :: replaceWikilinksPlain fuel cs

/-- JavaScript `\w`: ASCII letters, digits and underscore. -/
def jsWordChar (c : Char) : Bool :=
  c.isAlphanum || c == '_'

/-- The tag character class: `\w` plus slash and dash. -/
def tagWordChar (c : Char) : Bool :=
  jsWordChar c || c == '/' || c == '-'

/-- JavaScript `\s` restricted to the characters that can occur in the inputs
considered here: space, tab, newline, carriage return, vertical tab, form
feed and no-break space (the full class also has further Unicode spaces). -/
def isJsWhitespace (c : Char) : Bool :=
  c == ' ' || c == '\t' || c == '\n' || c == '\r' ||
  c == Char.ofNat 11 || c == Char.ofNat 12 || c == Char.ofNat 160

/-- The replacement template `<span class="tag" data-tag="$2">#$2</span>`. -/
def tagSpan (t : List Char) : List Char :=
  "<span class=\"tag\" data-tag=\"".data ++ t ++ "\">#".data ++ t ++ "</span>".data

/-- The global tag replace of `preprocessMarkdown`: pattern `(^|\s)` then `#`
then one or more tag characters, replaced by `$1<span ...>#$2</span>`.
The boolean argument records whether the scan position is the string start
(the `^` alternative; no `m` flag, so only position 0 qualifies).  A
whitespace character matched by the `\s` alternative is captured as `$1`
and re-emitted before the span. -/
def replaceTags : Nat → Bool → List Char → List Char
  | 0, _, s => s
  | _ + 1, _, [] => []
  | fuel + 1, atStart, c :: cs =>
    if atStart && c == '#' then
      let t := cs.takeWhile tagWordChar
      if t.isEmpty then c :: replaceTags fuel false cs
      else tagSpan t ++ replaceTags fuel false (cs.dropWhile tagWordChar)
    else if isJsWhitespace c then
      match cs with
      | '#' :: cs2 =>
        let t := cs2.takeWhile tagWordChar
        if t.isEmpty then c :: replaceTags fuel false cs
        else c :: (tagSpan t ++ replaceTags fuel false (cs2.dropWhile tagWordChar))
      | _ => c :: replaceTags fuel false cs
    else c :: replaceTags fuel false cs

/-- The callout replacement function: fold class from the `[-+]?` capture,
title falling back to the type (`title || type`), type lower-cased. -/
def calloutDiv (ty : List Char) (fold : Option Char) (title : List Char) : List Char :=
  let foldClass := if fold == some '-' then "collapsed".data
    else if fold == some '+' then "expanded".data else []
  let titleText := if title.isEmpty then ty else title
  "<div class=\"callout callout-".data ++ ty.map Char.toLower ++ " ".data ++ foldClass ++
    "\"><div class=\"callout-title\"><span class=\"callout-icon\"></span><span class=\"callout-title-text\">".data ++
    titleText ++
    "</span></div><div class=\"callout-content\">".data

/-- One attempted match of `/^> \[!(\w+)\]([-+]?)\s*(.*)$/` anchored at a line
start: the literal lead-in, the type word, the optional fold marker, then
greedy whitespace (which in JavaScript may even cross newlines) and the
title running to the end of its line. -/
def calloutMatchAt (s : List Char) : Option (List Char × Option Char × List Char × List Char) :=
  match s with
  | '>' :: ' ' :: '[' :: '!' :: r1 =>
    let w := r1.takeWhile jsWordChar
    if w.isEmpty then none
    else
      match r1.dropWhile jsWordChar with
      | ']' :: r2 =>
        let foldRest : Option Char × List Char :=
          match r2 with
          | '-' :: r => (some '-', r)
          | '+' :: r => (some '+', r)
          | r => (none, r)
        let r3 := foldRest.2.dropWhile isJsWhitespace
        let title := r3.takeWhile (fun c => !(c == '\n'))
        some (w, foldRest.1, title, r3.dropWhile (fun c => !(c == '\n')))
      | _ => none
  | _ => none

/-- The global multiline replace
`.replace(/^> \[!(\w+)\]([-+]?)\s*(.*)$/gm, calloutDiv)`.  The boolean
argument records whether the scan position is a line start (position 0 or
just after a newline). -/
def replaceCallouts : Nat → Bool → List Char → List Char
  | 0, _, s => s
  | _ + 1, _, [] => []
  | fuel + 1, atLineStart, c :: cs =>
    if atLineStart then
      match calloutMatchAt (c :: cs) with
      | some (ty, fold, title, rest) =>
        calloutDiv ty fold title ++ replaceCallouts fuel false rest
      | none => c :: replaceCallouts fuel (c == '\n') cs
    else c :: replaceCallouts fuel (c == '\n') cs

/-- `preprocessMarkdown`: strip frontmatter, then convert aliased wikilinks,
plain wikilinks, tags and callout headers to HTML spans/divs, in that
order. -/
def preprocessMarkdown (content : List Char) : List Char :=
  let contentWithoutFrontmatter := stripFrontmatter content
  let s1 := replaceWikilinksAliased contentWithoutFrontmatter.length contentWithoutFrontmatter
  let s2 := replaceWikilinksPlain s1.length s1
  let s3 := replaceTags s2.length true s2
  replaceCallouts s3.length true s3

-- ============================================================================
-- Concrete inputs used by the theorems below
-- ============================================================================

/-- A graph with one note node connected only through a concept edge: the
setting of the spec's filter-ordering test. -/
def exG1 : GraphData :=
  { nodes := [⟨"A", "A", "A.md", 1, .note⟩, ⟨"C", "c", "", 1, .concept⟩]
    edges := [⟨"A", "C", .concept, some "c"⟩]
    concepts := [⟨"c", 1, ["A.md"]⟩] }

/-- Filters hiding concept links and orphans. -/
def cfg1 : GraphFilterOptions := { showOrphans := some false, showConceptLinks := some false }

/-- Filters hiding concept links but showing orphans. -/
def cfg1t : GraphFilterOptions := { showOrphans := some true, showConceptLinks := some false }

/-- Filters hiding concept links only (orphan visibility left at its
default). -/
def cfg2 : GraphFilterOptions := { showConceptLinks := some false }

/-- A one-node graph used against the tag filter. -/
def exG3 : GraphData := { nodes := [⟨"N", "N", "n.md", 0, .note⟩], edges := [], concepts := [] }

/-- The note node of `exG1`. -/
def exN1 : GraphNode := ⟨"A", "A", "A.md", 1, .note⟩

/-- The D3 image of `exN1` under the identity filters. -/
def exD3N1 : D3Node := toD3Node (maxConnectionsOf exG1) none exN1

/-- An empty graph payload. -/
def gd0 : GraphData := ⟨[], [], []⟩

/-- A `useGraph` state with a fetch in flight. -/
def stG : UseGraph.GraphState := ⟨none, true, none, true, []⟩

/-- A fresh `useLinks` state with an empty cache. -/
def st8 : UseLinks.LinksState := ⟨[], [], false, none, none, []⟩

/-- A backlink of note `a`. -/
def aL : UseLinks.LinkInfo := ⟨"a1.md", "A1", none⟩

/-- A backlink of note `b`. -/
def bL : UseLinks.LinkInfo := ⟨"b1.md", "B1", none⟩

/-- A `useLinks` state whose module-level cache already holds a fresh entry
for path `b` (left over from an earlier visit). -/
def st70 : UseLinks.LinksState := ⟨[], [], false, none, none, [("b", ⟨[bL], [], 0⟩)]⟩

/-- `st70` after a fetch for path `a` started (cache miss, ref set to `a`). -/
def st71 : UseLinks.LinksState := (UseLinks.fetchLinksStart st70 (some "a") 0).1

/-- `st71` after the user navigated to path `b` and was served from the
cache — note `currentPathRef` still holds `a`. -/
def st72 : UseLinks.LinksState := (UseLinks.fetchLinksStart st71 (some "b") 0).1

-- ============================================================================
-- Helper lemmas about the filter/transform stage
-- ============================================================================

/-- A node surviving the first node filter under hidden orphans has a
positive pre-filter connection count. -/
lemma connections_pos_of_passes {filters : GraphFilterOptions} {n : GraphNode}
    (hp : nodePassesFilters filters n = true)
    (h : filters.showOrphans.getD true = false) : 0 < n.connections := by
  rcases Nat.eq_zero_or_pos n.connections with h0 | h0
  · exfalso
    simp [nodePassesFilters, h, h0] at hp
  · exact h0

/-- The orphan re-pruning pass of `transformToD3` is a no-op: its keep
condition `connectedIds.has(n.id) || n.connections > 0` is satisfied by
every node that survived the first-pass orphan filter, because those all
have positive pre-filter connection counts. -/
lemma filteredNodes2_eq (data : GraphData) (filters : GraphFilterOptions) :
    filteredNodes2 data filters = filteredNodes1 data filters := by
  unfold filteredNodes2
  by_cases h : filters.showOrphans.getD true = true
  · simp [h]
  · rw [Bool.not_eq_true] at h
    simp only [h, Bool.not_false, if_pos]
    apply List.filter_eq_self.mpr
    intro n hn
    have hp := (List.mem_filter.mp hn).2
    have hpos := connections_pos_of_passes hp h
    simp [hpos]

/-- Every node of the transform output is the D3 image of an input node. -/
lemma mem_transform_nodes {data : GraphData} {filters : GraphFilterOptions}
    {centerPath : Option String} {n : D3Node}
    (hn : n ∈ (transformToD3 data filters centerPath).nodes) :
    ∃ n₀ ∈ data.nodes, n = toD3Node (maxConnectionsOf data) centerPath n₀ := by
  simp only [transformToD3] at hn
  obtain ⟨n₀, hn₀, rfl⟩ := List.mem_map.mp hn
  rw [filteredNodes2_eq] at hn₀
  exact ⟨n₀, (List.mem_filter.mp hn₀).1, rfl⟩

/-- An edge passing the edge filter has both endpoints among the valid ids. -/
lemma edgePassesFilters_valid {filters : GraphFilterOptions} {valid : List String}
    {e : GraphEdge} (h : edgePassesFilters filters valid e = true) :
    e.source ∈ valid ∧ e.target ∈ valid := by
  simp [edgePassesFilters] at h
  exact h.1

-- ============================================================================
-- C1: filter ordering for orphan pruning
-- ============================================================================

/-- Claim C1 (code does not satisfy it): the orphan re-pruning after edge
filtering is a no-op — `filteredNodes2` always equals `filteredNodes1`
because the keep condition also accepts any node with a positive
pre-filter connection count.  Concretely, with
`showConceptLinks = false` and `showOrphans = false`, the note `A` of
`exG1`, connected only through a concept edge, stays in the output with
zero edges — the spec's filter-ordering test says it must disappear.
(With `showOrphans = true` it stays with zero edges, as the spec also
says.) -/
theorem transformToD3_orphan_repruning_noop :
    (∀ (data : GraphData) (filters : GraphFilterOptions),
        filteredNodes2 data filters = filteredNodes1 data filters)
    ∧ (transformToD3 exG1 cfg1 none).nodes.map D3Node.id = ["A", "C"]
    ∧ (transformToD3 exG1 cfg1 none).edges = []
    ∧ (transformToD3 exG1 cfg1t none).nodes.map D3Node.id = ["A", "C"]
    ∧ (transformToD3 exG1 cfg1t none).edges = [] :=
  ⟨filteredNodes2_eq, by decide, by decide, by decide, by decide⟩

-- ============================================================================
-- C2: connection counts are copied, not re-derived
-- ============================================================================

/-- Claim C2 is false on the code: with concept links hidden, both nodes of
`exG1` keep their pre-filter connection count 1 while zero filtered edges
touch them. -/
theorem transformToD3_counts_not_rederived_cex :
    ((transformToD3 exG1 cfg2 none).nodes.map
      (fun n => (n.connections, specConnectionCount (transformToD3 exG1 cfg2 none).edges n.id)))
      = [(1, 0), (1, 0)] := by
  decide

/-- Claim C2 amended: every node of the transform output carries the
connection count of its pre-filter input node unchanged (and its size is
computed from that pre-filter count); the count is not re-derived from
the filtered edge set. -/
theorem transformToD3_counts_carried_over :
    ∀ (data : GraphData) (filters : GraphFilterOptions) (centerPath : Option String)
      (n : D3Node), n ∈ (transformToD3 data filters centerPath).nodes →
      ∃ n₀ ∈ data.nodes, n.id = n₀.id ∧ n.connections = n₀.connections ∧
        n.size = calculateNodeSize n₀.connections (maxConnectionsOf data) := by
  intro data filters centerPath n hn
  obtain ⟨n₀, h₀, rfl⟩ := mem_transform_nodes hn
  exact ⟨n₀, h₀, rfl, rfl, rfl⟩

/-- Witness for the amended C2 at a concrete input. -/
theorem transformToD3_counts_carried_over_witness :
    ∃ n₀ ∈ exG1.nodes, exD3N1.id = n₀.id ∧ exD3N1.connections = n₀.connections ∧
      exD3N1.size = calculateNodeSize n₀.connections (maxConnectionsOf exG1) :=
  transformToD3_counts_carried_over exG1 {} none exD3N1 (List.mem_cons_self _ _)

-- ============================================================================
-- C3: the tag filter is never applied
-- ============================================================================

/-- Claim C3 (code does not satisfy it): `transformToD3` never reads the
`tag` filter field — changing it cannot change the output — and no
node-to-tags data is consumed anywhere in the transform.  Concretely, the
node `N` of `exG3` carries no tag data at all, yet filtering by tag
`project` keeps it. -/
theorem transformToD3_ignores_tag :
    (∀ (data : GraphData) (fl : GraphFilterOptions) (t : Option String)
        (centerPath : Option String),
        transformToD3 data { fl with tag := t } centerPath = transformToD3 data fl centerPath)
    ∧ (transformToD3 exG3 { tag := some "project" } none).nodes.map D3Node.id = ["N"] :=
  ⟨fun _ _ _ _ => rfl, by decide⟩

-- ============================================================================
-- C9: filtering never leaves a dangling edge
-- ============================================================================

/-- Claim C9: every edge of the transform output has both endpoint ids among
the ids of the output node list, for every input graph and every filter
combination. -/
theorem transformToD3_no_dangling_edges :
    ∀ (data : GraphData) (filters : GraphFilterOptions) (centerPath : Option String)
      (e : D3Edge), e ∈ (transformToD3 data filters centerPath).edges →
      e.source ∈ (transformToD3 data filters centerPath).nodes.map D3Node.id ∧
        e.target ∈ (transformToD3 data filters centerPath).nodes.map D3Node.id := by
  intro data filters centerPath e he
  simp only [transformToD3] at he ⊢
  obtain ⟨e₀, he₀, rfl⟩ := List.mem_map.mp he
  have hpass := (List.mem_filter.mp he₀).2
  obtain ⟨hs, ht⟩ := edgePassesFilters_valid hpass
  rw [filteredNodes2_eq]
  constructor
  · obtain ⟨n, hn, hid⟩ := List.mem_map.mp hs
    exact List.mem_map.mpr ⟨toD3Node (maxConnectionsOf data) centerPath n,
      List.mem_map.mpr ⟨n, hn, rfl⟩, hid⟩
  · obtain ⟨n, hn, hid⟩ := List.mem_map.mp ht
    exact List.mem_map.mpr ⟨toD3Node (maxConnectionsOf data) centerPath n,
      List.mem_map.mpr ⟨n, hn, rfl⟩, hid⟩

/-- Witness for C9 at a concrete input. -/
theorem transformToD3_no_dangling_edges_witness :
    "A" ∈ (transformToD3 exG1 {} none).nodes.map D3Node.id ∧
      "C" ∈ (transformToD3 exG1 {} none).nodes.map D3Node.id :=
  transformToD3_no_dangling_edges exG1 {} none ⟨"A", "C", .concept, some "c"⟩
    (List.mem_cons_self _ _)

-- ============================================================================
-- C10: node size bounds and monotonicity
-- ============================================================================

/-- Claim C10: `calculateNodeSize` equals 4 when the maximum is 0, stays in
`[4, 20]` whenever the count does not exceed the maximum, is monotone in
the count, and consequently every output node of the transform whose
connection count does not exceed the scaling maximum has size in
`[4, 20]`. -/
theorem calculateNodeSize_bounds :
    (∀ c : Nat, calculateNodeSize c 0 = 4)
    ∧ (∀ c m : Nat, c ≤ m → (4 : ℚ) ≤ calculateNodeSize c m ∧ calculateNodeSize c m ≤ 20)
    ∧ (∀ c₁ c₂ m : Nat, c₁ ≤ c₂ → calculateNodeSize c₁ m ≤ calculateNodeSize c₂ m)
    ∧ (∀ (data : GraphData) (filters : GraphFilterOptions) (centerPath : Option String)
        (n : D3Node), n ∈ (transformToD3 data filters centerPath).nodes →
        n.connections ≤ maxConnectionsOf data → (4 : ℚ) ≤ n.size ∧ n.size ≤ 20) := by
  have hzero : ∀ c : Nat, calculateNodeSize c 0 = 4 := by
    intro c
    simp [calculateNodeSize]
  have hbounds : ∀ c m : Nat, c ≤ m →
      (4 : ℚ) ≤ calculateNodeSize c m ∧ calculateNodeSize c m ≤ 20 := by
    intro c m hcm
    rcases Nat.eq_zero_or_pos m with hm | hm
    · subst hm
      rw [hzero]
      norm_num
    · have hm' : (0 : ℚ) < (m : ℚ) := by exact_mod_cast hm
      have hr0 : (0 : ℚ) ≤ (c : ℚ) / (m : ℚ) := by positivity
      have hr1 : (c : ℚ) / (m : ℚ) ≤ 1 := by
        rw [div_le_one hm']
        exact_mod_cast hcm
      have hmne : m ≠ 0 := Nat.pos_iff_ne_zero.mp hm
      simp only [calculateNodeSize, if_neg hmne]
      constructor <;> nlinarith
  have hmono : ∀ c₁ c₂ m : Nat, c₁ ≤ c₂ →
      calculateNodeSize c₁ m ≤ calculateNodeSize c₂ m := by
    intro c₁ c₂ m h12
    rcases Nat.eq_zero_or_pos m with hm | hm
    · subst hm
      rw [hzero, hzero]
    · have hm' : (0 : ℚ) < (m : ℚ) := by exact_mod_cast hm
      have hmne : m ≠ 0 := Nat.pos_iff_ne_zero.mp hm
      have hc : (c₁ : ℚ) ≤ (c₂ : ℚ) := by exact_mod_cast h12
      have hdiv : (c₁ : ℚ) / (m : ℚ) ≤ (c₂ : ℚ) / (m : ℚ) :=
        div_le_div_of_nonneg_right hc hm'.le
      simp only [calculateNodeSize, if_neg hmne]
      nlinarith
  refine ⟨hzero, hbounds, hmono, ?_⟩
  intro data filters centerPath n hn hle
  obtain ⟨n₀, _, rfl⟩ := mem_transform_nodes hn
  exact hbounds n₀.connections (maxConnectionsOf data) hle

/-- Witness for C10 at concrete inputs. -/
theorem calculateNodeSize_bounds_witness :
    ((4 : ℚ) ≤ calculateNodeSize 1 2 ∧ calculateNodeSize 1 2 ≤ 20)
    ∧ ((4 : ℚ) ≤ exD3N1.size ∧ exD3N1.size ≤ 20) :=
  ⟨calculateNodeSize_bounds.2.1 1 2 (by norm_num),
   calculateNodeSize_bounds.2.2.2 exG1 {} none exD3N1 (List.mem_cons_self _ _) (by decide)⟩

-- ============================================================================
-- C4: cache TTL validity
-- ============================================================================

/-- Claim C4: when a lookup actually happens (no fetch already in flight, a
truthy path), a cached payload is served if and only if an entry exists
and `now - timestamp < TTL`, with TTL 60000 ms for the full-graph entry,
60000 ms for local-graph entries keyed by center and depth, and 30000 ms
for per-path link-list entries; an expired entry makes the call start a
recomputation. -/
theorem cache_ttl_validity :
    (∀ (st : UseGraph.GraphState) (now : Int) (d : GraphData),
        st.fetchInProgress = false →
        ((UseGraph.fetchGraphStart st now).2 = UseGraph.FetchGraphStep.servedFromCache d ↔
          ∃ e, st.graphCache.lookup "full" = some e ∧ now - e.timestamp < 60000 ∧ d = e.data))
    ∧ (∀ (st : UseGraph.GraphState) (now : Int) (e : UseGraph.GraphCacheEntry),
        st.fetchInProgress = false → st.graphCache.lookup "full" = some e →
        ¬(now - e.timestamp < 60000) →
        (UseGraph.fetchGraphStart st now).2 = UseGraph.FetchGraphStep.startedFetch)
    ∧ (∀ (st : UseGraph.LocalGraphState) (center : String) (depth : Nat) (now : Int)
        (d : GraphData), center ≠ "" →
        ((UseGraph.fetchLocalGraphStart st (some center) depth now).2
            = UseGraph.FetchLocalGraphStep.servedFromCache d ↔
          ∃ e, st.graphCache.lookup (UseGraph.localGraphCacheKey center depth) = some e ∧
            now - e.timestamp < 60000 ∧ d = e.data))
    ∧ (∀ (st : UseLinks.LinksState) (p : String) (now : Int)
        (bl og : List UseLinks.LinkInfo), p ≠ "" →
        ((UseLinks.fetchLinksStart st (some p) now).2
            = UseLinks.FetchLinksStep.servedFromCache bl og ↔
          ∃ e, st.linksCache.lookup p = some e ∧ now - e.timestamp < 30000 ∧
            bl = e.backlinks ∧ og = e.outgoingLinks)) := by
  refine ⟨?_, ?_, ?_, ?_⟩
  · intro st now d h
    cases hl : st.graphCache.lookup "full" with
    | none => simp [UseGraph.fetchGraphStart, h, hl]
    | some e0 =>
      by_cases ht : now - e0.timestamp < 60000 <;>
        simp [UseGraph.fetchGraphStart, UseGraph.CACHE_TTL, h, hl, ht, eq_comm]
  · intro st now e h hl ht
    simp [UseGraph.fetchGraphStart, UseGraph.CACHE_TTL, h, hl, ht]
  · intro st center depth now d hc
    have hop : optTruthy (some center) = true := by
      simpa [optTruthy] using hc
    cases hl : st.graphCache.lookup (UseGraph.localGraphCacheKey center depth) with
    | none => simp [UseGraph.fetchLocalGraphStart, hop, hl]
    | some e0 =>
      by_cases ht : now - e0.timestamp < 60000 <;>
        simp [UseGraph.fetchLocalGraphStart, UseGraph.CACHE_TTL, hop, hl, ht, eq_comm]
  · intro st p now bl og hp
    have hop : optTruthy (some p) = true := by
      simpa [optTruthy] using hp
    cases hl : st.linksCache.lookup p with
    | none => simp [UseLinks.fetchLinksStart, hop, hl]
    | some e0 =>
      by_cases ht : now - e0.timestamp < 30000 <;>
        simp [UseLinks.fetchLinksStart, UseLinks.CACHE_TTL, hop, hl, ht, eq_comm, and_assoc]

/-- Witness for C4 at concrete inputs. -/
theorem cache_ttl_validity_witness :
    ((UseGraph.fetchGraphStart ⟨none, false, none, false, [("full", ⟨gd0, 0⟩)]⟩ 5).2
        = UseGraph.FetchGraphStep.servedFromCache gd0 ↔
      ∃ e, ([("full", (⟨gd0, 0⟩ : UseGraph.GraphCacheEntry))] : UseGraph.GraphCache).lookup "full"
          = some e ∧ (5 : Int) - e.timestamp < 60000 ∧ gd0 = e.data)
    ∧ (UseGraph.fetchGraphStart ⟨none, false, none, false, [("full", ⟨gd0, 0⟩)]⟩ 60000).2
        = UseGraph.FetchGraphStep.startedFetch :=
  ⟨cache_ttl_validity.1 ⟨none, false, none, false, [("full", ⟨gd0, 0⟩)]⟩ 5 gd0 rfl,
   cache_ttl_validity.2.1 ⟨none, false, none, false, [("full", ⟨gd0, 0⟩)]⟩ 60000 ⟨gd0, 0⟩
     rfl (by decide) (by decide)⟩

-- ============================================================================
-- C7: stale responses and the currentPathRef guard
-- ============================================================================

/-- Claim C7 is false on the code as stated: after a fetch for `a` starts and
the user navigates to `b` served from the cache, `currentPathRef` still
holds `a` (the cache-hit branch does not update it), so the response
answering the superseded path `a` is still committed even though the
latest request was for `b`. -/
theorem fetchLinks_stale_commit_cex :
    (UseLinks.fetchLinksStart st71 (some "b") 0).2
        = UseLinks.FetchLinksStep.servedFromCache [bL] []
    ∧ st72.backlinks = [bL]
    ∧ (UseLinks.applyLinksResponse st72 "a" (.ok ([aL], [])) 0).backlinks = [aL] := by
  decide

/-- Claim C7 amended: a response is committed only when the path it answers
equals `currentPathRef` at arrival — the last path for which a backend
fetch was actually started; when the paths differ, the response changes
nothing at all (no data, error, cache or loading update), for both the
links hook and the local-graph hook. -/
theorem stale_response_discarded :
    (∀ (st : UseLinks.LinksState) (p : String)
        (res : Except String (List UseLinks.LinkInfo × List UseLinks.LinkInfo)) (now : Int),
        st.currentPathRef ≠ some p → UseLinks.applyLinksResponse st p res now = st)
    ∧ (∀ (st : UseGraph.LocalGraphState) (center : String) (depth : Nat)
        (res : Except String GraphData) (now : Int),
        st.currentPathRef ≠ some center →
          UseGraph.applyLocalGraphResponse st center depth res now = st) := by
  constructor
  · intro st p res now h
    cases res with
    | ok pair =>
      obtain ⟨bl, og⟩ := pair
      simp [UseLinks.applyLinksResponse, beq_eq_false_iff_ne.mpr h]
    | error msg => simp [UseLinks.applyLinksResponse, beq_eq_false_iff_ne.mpr h]
  · intro st center depth res now h
    cases res with
    | ok data => simp [UseGraph.applyLocalGraphResponse, beq_eq_false_iff_ne.mpr h]
    | error msg => simp [UseGraph.applyLocalGraphResponse, beq_eq_false_iff_ne.mpr h]

/-- Witness for the amended C7 at a concrete input. -/
theorem stale_response_discarded_witness :
    UseLinks.applyLinksResponse st8 "a" (.ok ([aL], [])) 0 = st8 :=
  stale_response_discarded.1 st8 "a" (.ok ([aL], [])) 0 (by decide)

-- ============================================================================
-- C8: single-flight
-- ============================================================================

/-- Claim C8 is false on the code: with an empty cache, a second `fetchLinks`
call for the same path issued before the first response arrives starts a
second backend fetch — a duplicate recomputation instead of awaiting the
first. -/
theorem fetchLinks_duplicate_fetch_cex :
    (UseLinks.fetchLinksStart st8 (some "a") 0).2 = UseLinks.FetchLinksStep.startedFetch
    ∧ (UseLinks.fetchLinksStart (UseLinks.fetchLinksStart st8 (some "a") 0).1 (some "a") 0).2
        = UseLinks.FetchLinksStep.startedFetch := by
  decide

/-- Claim C8 amended: only the full-graph fetch tracks an in-flight fetch,
and its effect is to make a second call return immediately, unchanged and
without fetching (it does not await or receive the first call's result);
the links fetch keeps no in-flight mark — starting a fetch leaves the
cache untouched, so a second call for the same missing path starts a
duplicate backend fetch. -/
theorem single_flight_graph_only :
    (∀ (st : UseGraph.GraphState) (now : Int), st.fetchInProgress = true →
        UseGraph.fetchGraphStart st now = (st, UseGraph.FetchGraphStep.skippedInFlight))
    ∧ (∀ (st : UseLinks.LinksState) (p : String) (now : Int), p ≠ "" →
        st.linksCache.lookup p = none →
        (UseLinks.fetchLinksStart st (some p) now).2 = UseLinks.FetchLinksStep.startedFetch
        ∧ ((UseLinks.fetchLinksStart st (some p) now).1).linksCache = st.linksCache
        ∧ (UseLinks.fetchLinksStart (UseLinks.fetchLinksStart st (some p) now).1
            (some p) now).2 = UseLinks.FetchLinksStep.startedFetch) := by
  constructor
  · intro st now h
    simp [UseGraph.fetchGraphStart, h]
  · intro st p now hp hl
    have hop : optTruthy (some p) = true := by
      simpa [optTruthy] using hp
    refine ⟨?_, ?_, ?_⟩
    · simp [UseLinks.fetchLinksStart, hop, hl]
    · simp [UseLinks.fetchLinksStart, hop, hl]
    · simp [UseLinks.fetchLinksStart, hop, hl]

/-- Witness for the amended C8 at concrete inputs. -/
theorem single_flight_graph_only_witness :
    UseGraph.fetchGraphStart stG 0 = (stG, UseGraph.FetchGraphStep.skippedInFlight)
    ∧ (UseLinks.fetchLinksStart st8 (some "a") 0).2 = UseLinks.FetchLinksStep.startedFetch :=
  ⟨single_flight_graph_only.1 stG 0 rfl,
   (single_flight_graph_only.2 st8 "a" 0 (by decide) rfl).1⟩

-- ============================================================================
-- Helper lemmas about the wikilink matcher
-- ============================================================================

/-- The captures of a successful `wikilinkMatchAt` come from `takeWhile` runs
over their character classes. -/
lemma wikilinkMatchAt_chars {s t : List Char} {a : Option (List Char)} {rest : List Char}
    (h : wikilinkMatchAt s = some (t, a, rest)) :
    (∀ ch ∈ t, wikiTargetChar ch = true) ∧
      (∀ al, a = some al → ∀ ch ∈ al, wikiAliasChar ch = true) := by
  unfold wikilinkMatchAt at h
  split at h
  · rename_i rest0
    dsimp only at h
    split at h
    · exact absurd h (by simp)
    · split at h
      · rename_i r2
        split at h
        · exact absurd h (by simp)
        · split at h
          · rename_i r4
            simp only [Option.some.injEq, Prod.mk.injEq] at h
            obtain ⟨ht, ha2, hr⟩ := h
            subst ht
            constructor
            · intro ch hch
              exact List.mem_takeWhile_imp hch
            · intro al hal ch hch
              rw [← ha2] at hal
              injection hal with hal
              subst hal
              exact List.mem_takeWhile_imp hch
          · exact absurd h (by simp)
      · rename_i r4
        simp only [Option.some.injEq, Prod.mk.injEq] at h
        obtain ⟨ht, ha2, hr⟩ := h
        subst ht
        constructor
        · intro ch hch
          exact List.mem_takeWhile_imp hch
        · intro al hal
          rw [← ha2] at hal
          exact absurd hal (by simp)
      · exact absurd h (by simp)
  · exact absurd h (by simp)

/-- Every match recorded by the exec-loop scan has its captures drawn from
the regex character classes. -/
lemma wikilinkScanFrom_chars :
    ∀ (fuel i : Nat) (s : List Char) (m : ScanMatch), m ∈ wikilinkScanFrom fuel i s →
      (∀ ch ∈ m.target, wikiTargetChar ch = true) ∧
        (∀ al, m.aliasText = some al → ∀ ch ∈ al, wikiAliasChar ch = true) := by
  intro fuel
  induction fuel with
  | zero =>
    intro i s m hm
    simp [wikilinkScanFrom] at hm
  | succ fuel ih =>
    intro i s m hm
    cases s with
    | nil => simp [wikilinkScanFrom] at hm
    | cons c cs =>
      cases hma : wikilinkMatchAt (c :: cs) with
      | none =>
        simp only [wikilinkScanFrom, hma] at hm
        exact ih (i + 1) cs m hm
      | some tri =>
        obtain ⟨t, a, rest⟩ := tri
        simp only [wikilinkScanFrom, hma] at hm
        rcases List.mem_cons.mp hm with hm | hm
        · subst hm
          exact wikilinkMatchAt_chars hma
        · exact ih _ rest m hm

-- ============================================================================
-- C5: what the extractor's captures can contain
-- ============================================================================

/-- Claim C5 is false on the code: the negated character classes of
`wikilinkRegex` admit newlines, so `[[a\nb]]` yields a single match whose
target contains a newline. -/
theorem wikilink_newline_match_cex :
    (wikilinkMatches "[[a\nb]]").map (fun m => (m.target, m.aliasText))
        = [("a\nb".data, none)]
    ∧ '\n' ∈ "a\nb".data := by
  decide

/-- Claim C5 amended: for every input text, no match of `wikilinkRegex` has a
`]` or `|` inside its target, or a `]` inside its alias — but newlines
are admitted in both; spans the regex rejects are simply not matched
(dropped silently), never reported as errors. -/
theorem wikilink_capture_chars :
    ∀ (s : String) (m : ScanMatch), m ∈ wikilinkMatches s →
      (∀ ch ∈ m.target, ch ≠ ']' ∧ ch ≠ '|') ∧
        (∀ al, m.aliasText = some al → ∀ ch ∈ al, ch ≠ ']') := by
  intro s m hm
  obtain ⟨h1, h2⟩ := wikilinkScanFrom_chars _ _ _ m hm
  constructor
  · intro ch hch
    have ht := h1 ch hch
    simpa [wikiTargetChar] using ht
  · intro al hal ch hch
    have ht := h2 al hal ch hch
    simpa [wikiAliasChar] using ht

/-- Witness for the amended C5 at a concrete input. -/
theorem wikilink_capture_chars_witness :
    (∀ ch ∈ (⟨0, 5, "t".data, none⟩ : ScanMatch).target, ch ≠ ']' ∧ ch ≠ '|')
    ∧ (∀ al, (⟨0, 5, "t".data, none⟩ : ScanMatch).aliasText = some al →
        ∀ ch ∈ al, ch ≠ ']') :=
  wikilink_capture_chars "[[t]]" ⟨0, 5, "t".data, none⟩ (List.mem_cons_self _ _)

-- ============================================================================
-- C6: recognized forms and code-span skipping
-- ============================================================================

/-- Claim C6 is false on the code as stated: the reading view's
`preprocessMarkdown` substitutes wikilinks without any code-context check,
so a `[[X]]` inside a fenced code block still becomes a reference span. -/
theorem preprocess_code_block_wikilink_cex :
    preprocessMarkdown "```\n[[X]]\n```".data
      = "```\n<span class=\"wikilink\" data-target=\"X\">X</span>\n```".data := by
  decide

/-- Claim C6 amended: the editor's wikilink extractor recognizes all four
inline forms (`[[target]]`, `[[target|alias]]`, `[[target#heading]]`,
`[[target#^blockid]]`, the anchors riding along inside the target
capture), and `buildWikilinkDecorations` decorates only matches that do
not overlap a code node — every emitted decoration belongs to a match
whose `inCodeBlock` check came out false.  (The reading view's
`preprocessMarkdown` recognizes the same forms but does not skip code
spans; see the counterexample.) -/
theorem wikilink_forms_and_code_skip :
    ((wikilinkMatches "[[target]]").map (fun m => (m.target, m.aliasText))
        = [("target".data, none)])
    ∧ ((wikilinkMatches "[[target|alias]]").map (fun m => (m.target, m.aliasText))
        = [("target".data, some "alias".data)])
    ∧ ((wikilinkMatches "[[target#heading]]").map (fun m => (m.target, m.aliasText))
        = [("target#heading".data, none)])
    ∧ ((wikilinkMatches "[[target#^blockid]]").map (fun m => (m.target, m.aliasText))
        = [("target#^blockid".data, none)])
    ∧ (∀ (doc : List Char) (tree : List TreeNode) (vr : List (Nat × Nat)) (d : Decoration),
        d ∈ buildWikilinkDecorations doc tree vr →
        ∃ r ∈ vr, ∃ m ∈ wikilinkScanFrom ((doc.drop r.1).take (r.2 - r.1)).length r.1
            ((doc.drop r.1).take (r.2 - r.1)),
          inCodeBlock tree m.start m.stop = false ∧
            d ∈ [(⟨m.start, m.start + 2, "cm-wikilink-bracket"⟩ : Decoration),
                 ⟨m.start + 2, m.stop - 2, "cm-wikilink"⟩,
                 ⟨m.stop - 2, m.stop, "cm-wikilink-bracket"⟩]) := by
  refine ⟨by decide, by decide, by decide, by decide, ?_⟩
  intro doc tree vr d hd
  simp only [buildWikilinkDecorations] at hd
  obtain ⟨r, hr, hd⟩ := List.mem_flatMap.mp hd
  obtain ⟨m, hm, hd⟩ := List.mem_flatMap.mp hd
  refine ⟨r, hr, m, hm, ?_⟩
  by_cases hc : inCodeBlock tree m.start m.stop = true
  · rw [if_pos hc] at hd
    exact absurd hd (by simp)
  · rw [if_neg hc] at hd
    exact ⟨Bool.not_eq_true _ ▸ Bool.of_not_eq_true hc, hd⟩

/-- Witness for the amended C6 at a concrete input. -/
theorem wikilink_forms_and_code_skip_witness :
    ∃ r ∈ [((0 : Nat), (11 : Nat))],
      ∃ m ∈ wikilinkScanFrom (("ab [[X]] cd".data.drop r.1).take (r.2 - r.1)).length r.1
          (("ab [[X]] cd".data.drop r.1).take (r.2 - r.1)),
        inCodeBlock [⟨"Paragraph", 0, 11⟩] m.start m.stop = false ∧
          (⟨3, 5, "cm-wikilink-bracket"⟩ : Decoration) ∈
            [(⟨m.start, m.start + 2, "cm-wikilink-bracket"⟩ : Decoration),
             ⟨m.start + 2, m.stop - 2, "cm-wikilink"⟩,
             ⟨m.stop - 2, m.stop, "cm-wikilink-bracket"⟩] :=
  wikilink_forms_and_code_skip.2.2.2.2 "ab [[X]] cd".data [⟨"Paragraph", 0, 11⟩]
    [(0, 11)] ⟨3, 5, "cm-wikilink-bracket"⟩ (List.mem_cons_self _ _)

end OpenObs
